import Mathlib

/-!
Verification of the duf file-server request engine (`src/server.rs`) against its
natural-language specification.  The Rust code is shallowly embedded: pure
decision logic becomes Lean functions, `u64` arithmetic is `Nat` with an
explicit `% 2 ^ 64` where Rust wrapping matters, filesystem state is an
explicit list of entries, and fallible steps return `Option`.
-/

namespace Duf

/-- Width of the machine integers (`u64`) used by the Rust code for sizes and
range endpoints.  Rust release builds wrap on overflow; the embedding makes
the wrap explicit. -/
def U64 : Nat := 2 ^ 64

/-- Embedding of `a - b` on `u64` with release-mode wrapping semantics (both arguments are
assumed to be `u64` values, i.e. `< 2 ^ 64`). -/
def wrapSub (a b : Nat) : Nat := (a + U64 - b) % U64

/-- Split a character list at the first occurrence of `c`; models Rust's
`str::splitn(2, c)`: the second component is `none` when `c` does not occur. -/
def breakAt (c : Char) : List Char → List Char × Option (List Char)
  | [] => ([], none)
  | x :: xs =>
    if x = c then ([], some xs)
    else
      let r := breakAt c xs
      (x :: r.1, r.2)

/-- Numeric value of a list of decimal digit characters; `none` when the list
is empty or contains a non-digit. -/
def digitsVal : List Char → Option Nat
  | [] => none
  | [c] => if c.isDigit then some (c.toNat - 48) else none
  | c :: cs =>
    match digitsVal cs, (if c.isDigit then some (c.toNat - 48) else none) with
    | some rest, some d => some (d * 10 ^ cs.length + rest)
    | _, _ => none

/-- Rust `str::parse::<u64>()`: optional leading `+`, then one or more ASCII
digits, value below `2 ^ 64`; everything else is an error. -/
def parseU64 (s : List Char) : Option Nat :=
  let digits := match s with
    | '+' :: rest => rest
    | other => other
  match digitsVal digits with
  | some v => if v < U64 then some v else none
  | none => none

/-- Rust `str::parse::<u32>()`, used for the WebDAV `Depth` header. -/
def parseU32 (s : List Char) : Option Nat :=
  let digits := match s with
    | '+' :: rest => rest
    | other => other
  match digitsVal digits with
  | some v => if v < 2 ^ 32 then some v else none
  | none => none

/-- Embedding of `struct RangeValue { start: u64, end: Option<u64> }` (src/server.rs).
The Rust field `end` is a Lean keyword and is called `end_` here. -/
structure RangeValue where
  start : Nat
  end_ : Option Nat
  deriving Repr, DecidableEq

/-- Embedding of `parse_range` (src/server.rs): read the `Range` header (when present) as
`bytes=<start>-<end?>`; only a single range is understood, and any parse
failure yields `none`. -/
def parse_range (rangeHeader : Option String) : Option RangeValue :=
  match rangeHeader with
  | none => none
  | some hdr =>
    let p := breakAt '=' hdr.data
    if p.1 = "bytes".data then
      match p.2 with
      | none => none
      | some range =>
        let q := breakAt '-' range
        match parseU64 q.1 with
        | none => none
        | some start =>
          match q.2 with
          | none => some ⟨start, none⟩
          | some e =>
            if e = [] then some ⟨start, none⟩
            else
              match parseU64 e with
              | none => none
              | some v => some ⟨start, some v⟩
    else none

/-- Embedding of `extract_cache_headers` (src/server.rs): the ETag is the string
`"<mtime_ms>-<size>"`, double quotes included. -/
def etagOf (mtimeMs size : Nat) : String :=
  "\"" ++ toString mtimeMs ++ "-" ++ toString size ++ "\""

/-- The validator carried by an `If-Range` header: either an entity tag or an
HTTP date (seconds since epoch); external `headers` crate parsing is assumed
to have produced one of the two. -/
inductive IfRangeVal where
  | etag (s : String)
  | date (secs : Nat)
  deriving Repr, DecidableEq

/-- Embedding of `headers::IfRange::is_modified(etag, last_modified)`: an etag validator is
modified when it differs from the current etag; a date validator is modified
when the file's last-modified second exceeds it. -/
def if_range_is_modified (v : IfRangeVal) (etag : String) (lmSecs : Nat) : Bool :=
  match v with
  | .etag s => s ≠ etag
  | .date d => lmSecs > d

/-- Embedding of `headers::IfNoneMatch::precondition_passes(etag)`: the precondition passes
unless the list names the current etag (or `*`). -/
def if_none_match_passes (l : List String) (etag : String) : Bool :=
  !(l.contains "*" || l.contains etag)

/-- The request headers consulted by `handle_send_file`.  `ifNoneMatch` is the
list of etags of an `If-None-Match` header (with `*` kept literally),
`ifModifiedSince` an HTTP date in seconds, `range` the raw `Range` header
value. -/
structure SendHeaders where
  ifNoneMatch : Option (List String)
  ifModifiedSince : Option Nat
  range : Option String
  ifRange : Option IfRangeVal
  deriving Repr, DecidableEq

/-- The observable part of the response built by `handle_send_file`:  status,
the cache/range headers it inserts, and the streamed body bytes.
(`Content-Type` and `Content-Disposition` come from external crates and are
not modelled.) -/
structure SendFileResult where
  status : Nat
  etag : Option String
  lastModified : Option Nat
  acceptRanges : Bool
  contentRange : Option String
  contentLength : Option Nat
  body : List Nat
  deriving Repr, DecidableEq

/-- Embedding of `Server::handle_send_file` (src/server.rs, lines 667-758) for an existing
regular file with content `bytes` and modification time `mtimeMs`
(milliseconds).  Follows the source exactly: conditional-GET check first
(`If-None-Match`, else `If-Modified-Since`), then `If-Range` gating of the
`Range` header, then the three-way range/416/full dispatch.  `u64`
subtractions (`size - 1`, `end - start + 1`) wrap as in a Rust release
build.  Seeking to any `u64` offset of a regular file succeeds, and reading
past end-of-file yields no bytes, as on a POSIX file. -/
def handle_send_file (bytes : List Nat) (mtimeMs : Nat) (h : SendHeaders)
    (head_only : Bool) : SendFileResult :=
  let size := bytes.length
  let etag := etagOf mtimeMs size
  let lmSecs := mtimeMs / 1000
  let cached :=
    match h.ifNoneMatch with
    | some l => !(if_none_match_passes l etag)
    | none =>
      match h.ifModifiedSince with
      | some ims => !(decide (lmSecs > ims))
      | none => false
  if cached then
    { status := 304, etag := none, lastModified := none, acceptRanges := false,
      contentRange := none, contentLength := none, body := [] }
  else
    let use_range :=
      match h.range with
      | some _ =>
        match h.ifRange with
        | some ir => !(if_range_is_modified ir etag lmSecs)
        | none => true
      | none => false
    let range := if use_range then parse_range h.range else none
    match range with
    | some r =>
      if (match r.end_ with
          | none => decide (r.start < size)
          | some v => decide (v ≥ r.start)) then
        let endv := min (r.end_.getD (wrapSub size 1)) (wrapSub size 1)
        let part_size := (wrapSub endv r.start + 1) % U64
        { status := 206, etag := some etag, lastModified := some lmSecs,
          acceptRanges := true,
          contentRange :=
            some ("bytes " ++ toString r.start ++ "-" ++ toString endv ++ "/" ++
              toString size),
          contentLength := some part_size,
          body := if head_only then [] else (bytes.drop r.start).take part_size }
      else
        { status := 416, etag := some etag, lastModified := some lmSecs,
          acceptRanges := true,
          contentRange := some ("bytes */" ++ toString size),
          contentLength := none, body := [] }
    | none =>
      { status := 200, etag := some etag, lastModified := some lmSecs,
        acceptRanges := true, contentRange := none,
        contentLength := some size,
        body := if head_only then [] else bytes }

/-- Embedding of `enum PathType` (src/server.rs, line 1272), with the same variant order,
which drives the derived `Ord`. -/
inductive PathType where
  | Dir
  | SymlinkDir
  | File
  | SymlinkFile
  deriving Repr, DecidableEq

/-- Discriminant of a `PathType` variant; Rust's derived `Ord` compares
variants by declaration order. -/
def PathType.rank : PathType → Nat
  | .Dir => 0
  | .SymlinkDir => 1
  | .File => 2
  | .SymlinkFile => 3

/-- Embedding of `struct PathItem` (src/server.rs, line 1210), field order as in the
source; the derived `Ord` is lexicographic in this field order. -/
structure PathItem where
  path_type : PathType
  name : String
  mtime : Nat
  size : Option Nat
  deriving Repr, DecidableEq

/-- Embedding of `PathItem::is_dir` (src/server.rs). -/
def PathItem.is_dir (p : PathItem) : Bool :=
  p.path_type = PathType.Dir || p.path_type = PathType.SymlinkDir

/-- Three-way comparison on `Nat`, mirroring Rust `u64::cmp`. -/
def cmpNat (a b : Nat) : Ordering :=
  if a < b then .lt else if b < a then .gt else .eq

/-- Three-way comparison on `Char` by code point; UTF-8 byte order (what Rust
`String::cmp` uses) coincides with code-point order. -/
def cmpChar (a b : Char) : Ordering :=
  if a < b then .lt else if b < a then .gt else .eq

/-- Lexicographic comparison of character lists: Rust `str::cmp`. -/
def cmpCharList : List Char → List Char → Ordering
  | [], [] => .eq
  | [], _ :: _ => .lt
  | _ :: _, [] => .gt
  | x :: xs, y :: ys => (cmpChar x y).then (cmpCharList xs ys)

/-- Rust `Option<u64>::cmp`: `None` sorts before `Some`. -/
def cmpOptNat : Option Nat → Option Nat → Ordering
  | none, none => .eq
  | none, some _ => .lt
  | some _, none => .gt
  | some a, some b => cmpNat a b

/-- The derived `Ord` of `PathItem`: lexicographic over
(`path_type`, `name`, `mtime`, `size`). -/
def pathItemCmp (a b : PathItem) : Ordering :=
  ((cmpNat a.path_type.rank b.path_type.rank).then
    (cmpCharList a.name.data b.name.data)).then
    ((cmpNat a.mtime b.mtime).then (cmpOptNat a.size b.size))

/-- The (non-strict) sort relation induced by the derived `Ord`, the order
`Vec::sort_unstable` establishes. -/
def pathItemLe (a b : PathItem) : Prop := pathItemCmp a b ≠ Ordering.gt

instance : DecidableRel pathItemLe := fun _ _ => instDecidableNot

/-- Tokenisation worker for natural alphanumeric order: the accumulator holds
the value of the digit run currently being read. -/
def natTokensAux : Option Nat → List Char → List (Nat ⊕ Char)
  | acc, [] =>
    match acc with
    | some n => [Sum.inl n]
    | none => []
  | acc, c :: cs =>
    if c.isDigit then
      match acc with
      | some n => natTokensAux (some (n * 10 + (c.toNat - 48))) cs
      | none => natTokensAux (some (c.toNat - 48)) cs
    else
      match acc with
      | some n => Sum.inl n :: Sum.inr c :: natTokensAux none cs
      | none => Sum.inr c :: natTokensAux none cs

/-- Tokenisation for natural alphanumeric order: maximal digit runs become
numbers, other characters stay characters.  Models the external
`alphanumeric_sort` crate used by `send_index` for `sort=name`. -/
def natTokens (l : List Char) : List (Nat ⊕ Char) := natTokensAux none l

/-- Token comparison for natural order: numbers numerically, characters by
code point, numbers before characters. -/
def cmpTok : Nat ⊕ Char → Nat ⊕ Char → Ordering
  | Sum.inl a, Sum.inl b => cmpNat a b
  | Sum.inl _, Sum.inr _ => .lt
  | Sum.inr _, Sum.inl _ => .gt
  | Sum.inr a, Sum.inr b => cmpChar a b

/-- Lexicographic comparison of token lists. -/
def cmpTokList : List (Nat ⊕ Char) → List (Nat ⊕ Char) → Ordering
  | [], [] => .eq
  | [], _ :: _ => .lt
  | _ :: _, [] => .gt
  | x :: xs, y :: ys => (cmpTok x y).then (cmpTokList xs ys)

/-- Embedding of `alphanumeric_sort::compare_str` (external crate): natural alphanumeric
comparison. -/
def alphanumeric_compare_str (a b : String) : Ordering :=
  cmpTokList (natTokens a.data) (natTokens b.data)

/-- Sort relation of `send_index` for `sort=name`: case-folded natural order
(the code lowercases both names before comparing). -/
def by_name_le (a b : PathItem) : Prop :=
  alphanumeric_compare_str a.name.toLower b.name.toLower ≠ Ordering.gt

instance : DecidableRel by_name_le := fun _ _ => instDecidableNot

/-- Sort relation of `send_index` for `sort=mtime`. -/
def by_mtime_le (a b : PathItem) : Prop := a.mtime ≤ b.mtime

instance : DecidableRel by_mtime_le := fun a b => Nat.decLe a.mtime b.mtime

/-- Sort relation of `send_index` for `sort=size` (`size.unwrap_or(0)`). -/
def by_size_le (a b : PathItem) : Prop := a.size.getD 0 ≤ b.size.getD 0

instance : DecidableRel by_size_le := fun a b => Nat.decLe (a.size.getD 0) (b.size.getD 0)

/-- The ordering step of `Server::send_index` (src/server.rs, lines 942-961):
with `sort=name|mtime|size` a stable comparator sort (plus `order=desc`
reversal); with a `sort` key of any other value no sort at all; with no
`sort` parameter, `paths.sort_unstable()` under the derived `Ord`.
A stable insertion sort stands in for both Rust sorts: for the derived
total order, items comparing equal are identical, so stable and unstable
sorts agree. -/
def send_index_sort (sortq orderq : Option String) (paths : List PathItem) :
    List PathItem :=
  match sortq with
  | some sort =>
    let sorted :=
      if sort = "name" then List.insertionSort by_name_le paths
      else if sort = "mtime" then List.insertionSort by_mtime_le paths
      else if sort = "size" then List.insertionSort by_size_le paths
      else paths
    if orderq = some "desc" then sorted.reverse else sorted
  | none => List.insertionSort pathItemLe paths

/-- Embedding of `crate::utils::glob`.  Modelled from the spec: `src/utils.rs` is not part
of the sources provided; §3 and §4.4 of the spec describe `hidden` as a list
of glob patterns matched against entry names, so the standard glob semantics
(`*` any sequence, `?` any single character, other characters literal) is
used. -/
def glob : List Char → List Char → Bool
  | [], name => name.isEmpty
  | '*' :: ps, name => name.tails.any fun suf => glob ps suf
  | '?' :: ps, name =>
    match name with
    | [] => false
    | _ :: ns => glob ps ns
  | p :: ps, name =>
    match name with
    | [] => false
    | n :: ns => p = n && glob ps ns

/-- Embedding of `is_hidden` (src/server.rs, lines 1475-1488): posix-dot rule, then the
glob list; a pattern with a trailing `/` is matched (without the slash)
against directory entries only. -/
def is_hidden (hidden : List String) (posix_hidden : Bool) (file_name : String)
    (is_dir_type : Bool) : Bool :=
  if posix_hidden && file_name.data.head? = some '.' then true
  else
    hidden.any fun v =>
      if is_dir_type then
        if v.data.getLast? = some '/' then glob v.data.dropLast file_name.data
        else glob v.data file_name.data
      else glob v.data file_name.data

/-- One node of the modelled filesystem.  `path` is root-relative with `/`
separators; `isSymlink` is what `lstat` reports, `isDir` what a following
`stat` reports; `contained` records whether the canonicalised path stays
under `root_path` (the input to `Server::is_root_contained`). -/
structure FsEntry where
  path : String
  isSymlink : Bool
  isDir : Bool
  mtime : Nat
  content : List Nat
  contained : Bool
  deriving Repr, DecidableEq

/-- The filesystem below `root_path`, in `read_dir` iteration order. -/
abbrev Fs := List FsEntry

/-- Embedding of `tokio::fs::metadata` / `symlink_metadata` probe of one path. -/
def statOf (fs : Fs) (p : String) : Option FsEntry :=
  fs.find? fun e => e.path = p

/-- Embedding of `crate::utils::get_file_name`: the last `/`-separated segment. -/
def lastSegment (p : String) : String :=
  ⟨(p.data.reverse.takeWhile fun c => c ≠ '/').reverse⟩

/-- Parent path (`Path::parent`): the part before the last `/`, or `none`
for a single-segment path. -/
def parentOf (p : String) : Option String :=
  if p.data.contains '/' then
    some ⟨((p.data.reverse.dropWhile fun c => c ≠ '/').drop 1).reverse⟩
  else none

/-- Embedding of `Path::join` for root-relative paths. -/
def joinRel (dir name : String) : String :=
  if dir = "" then name else dir ++ "/" ++ name

/-- Embedding of `Path::strip_prefix(base)` for paths known to lie below `base`. -/
def relName (base p : String) : String :=
  if base = "" then p else ⟨p.data.drop (base.length + 1)⟩

/-- Whether `Path::extension()` is `Some`: the last segment has a `.` after
its first character. -/
def has_extension (p : String) : Bool :=
  match (lastSegment p).data with
  | [] => false
  | _ :: rest => rest.contains '.'

/-- Embedding of `crate::auth::AccessPerm`.  Modelled from the spec: `src/auth.rs` is not
part of the sources provided; §3 of the spec gives the three permission
kinds. -/
inductive AccessPerm where
  | ReadOnly
  | IndexOnly
  | ReadWrite
  deriving Repr, DecidableEq

/-- Embedding of `AccessPerm::indexonly`. -/
def AccessPerm.indexonly : AccessPerm → Bool
  | .IndexOnly => true
  | _ => false

/-- Embedding of `crate::auth::AccessPaths`.  Modelled from the spec (§3): a permission
kind plus, for index-only callers, the set of immediate child names they may
see. -/
structure AccessPaths where
  perm : AccessPerm
  child_paths : List String
  deriving Repr, DecidableEq

/-- The per-request configuration record (`crate::Args`), restricted to the
fields `Server::handle` consults.  URI-prefix handling happens in
`resolve_path`, whose outcome is an input of the model. -/
structure Args where
  allow_upload : Bool
  allow_delete : Bool
  allow_search : Bool
  allow_archive : Bool
  render_index : Bool
  render_spa : Bool
  render_try_index : Bool
  allow_symlink : Bool
  hidden : List String
  posix_hidden : Bool
  path_is_file : Bool
  deriving Repr, DecidableEq

/-- Embedding of `struct Server`: configuration plus the data `Server::init` derives for
single-file mode (`single_file_req_paths` and the served file itself). -/
structure Server where
  args : Args
  single_file_req_paths : List String
  served_file : List Nat
  served_mtime : Nat
  deriving Repr, DecidableEq

/-- Embedding of `Server::to_pathitem(path, base_path)` (src/server.rs, lines 1146-1174):
stat and lstat the entry, silently skip symlinks escaping the root when
symlinks are disallowed, classify the kind as the cross of
(symlink?, dir?), attach the size for files only, and name the item
relative to `base`.  A missing path (`metadata` error) is also mapped to
`none`: every caller either skips both cases alike or only reaches
existing paths. -/
def to_pathitem (srv : Server) (fs : Fs) (path base : String) : Option PathItem :=
  match statOf fs path with
  | none => none
  | some e =>
    if !srv.args.allow_symlink && e.isSymlink && !e.contained then none
    else
      let path_type :=
        match e.isSymlink, e.isDir with
        | true, true => PathType.SymlinkDir
        | false, true => PathType.Dir
        | true, false => PathType.SymlinkFile
        | false, false => PathType.File
      some
        { path_type := path_type
          name := relName base path
          mtime := e.mtime
          size :=
            match path_type with
            | .Dir | .SymlinkDir => none
            | .File | .SymlinkFile => some e.content.length }

/-- Embedding of `Server::add_pathitem` (src/server.rs, lines 1131-1144): convert the
entry, drop it when the hidden filter matches its base name and kind, else
append it. -/
def add_pathitem (srv : Server) (fs : Fs) (paths : List PathItem)
    (base entry_path : String) : List PathItem :=
  let base_name := lastSegment entry_path
  match to_pathitem srv fs entry_path base with
  | some item =>
    if is_hidden srv.args.hidden srv.args.posix_hidden base_name item.is_dir then
      paths
    else paths ++ [item]
  | none => paths

/-- The immediate children of `dir` in `read_dir` order. -/
def childrenOf (fs : Fs) (dir : String) : List String :=
  if dir = "" then
    (fs.filter fun e => !e.path.data.contains '/').map fun e => e.path
  else
    fs.filterMap fun e => if parentOf e.path = some dir then some e.path else none

/-- Embedding of `Server::list_dir` (src/server.rs, lines 1109-1129): for an index-only
caller iterate the enumerated `child_paths`, otherwise read the directory;
each entry goes through `add_pathitem`. -/
def list_dir (srv : Server) (fs : Fs) (entry_path base_path : String)
    (access : AccessPaths) : List PathItem :=
  if access.perm.indexonly then
    access.child_paths.foldl
      (fun acc name => add_pathitem srv fs acc base_path (joinRel entry_path name)) []
  else
    (childrenOf fs entry_path).foldl
      (fun acc p => add_pathitem srv fs acc base_path p) []

/-- Embedding of `Server::handle_propfind_dir` (src/server.rs, lines 798-837), reduced to
its observable decision: the status and the list of `PathItem`s the
multistatus XML renders (one `<D:response>` each).  `Depth` is parsed as a
Rust `u32`; absence defaults to `1`; a parse failure is `400` with no
multistatus body; depth `0` keeps only the directory itself, any other
parsed value appends the children from `list_dir`. -/
def handle_propfind_dir (srv : Server) (fs : Fs) (path : String)
    (depthHeader : Option String) (access : AccessPaths) :
    Nat × List PathItem :=
  let run : Nat → Nat × List PathItem := fun depth =>
    let selfItems :=
      match to_pathitem srv fs path "" with
      | some v => [v]
      | none => []
    if depth ≠ 0 then (207, selfItems ++ list_dir srv fs path "" access)
    else (207, selfItems)
  match depthHeader with
  | some v =>
    match parseU32 v.data with
    | some depth => run depth
    | none => (400, [])
  | none => run 1

/-- Embedding of `std::fs::symlink_metadata(entry_path).is_dir()` as called by
`handle_search_dir` and `zip_dir` on a symlink entry: `lstat` describes the
link itself, which is never a directory. -/
def symlink_metadata_is_dir (e : FsEntry) : Bool :=
  if e.isSymlink then false else e.isDir

/-- The `is_dir_type` computed per walked entry by `Server::handle_search_dir`
(src/server.rs, lines 504-514) and `zip_dir` (lines 1360-1370): start from
the WalkDir (`lstat`) file type and, for symlinks, re-ask
`std::fs::symlink_metadata`. -/
def walk_is_dir_type (e : FsEntry) : Bool :=
  let file_type_is_dir := if e.isSymlink then false else e.isDir
  if e.isSymlink then symlink_metadata_is_dir e else file_type_is_dir

/-- The kind the listing/PROPFIND pipeline feeds to `is_hidden`:
`PathItem::is_dir()` of the item built by `to_pathitem`, i.e. the followed
(`stat`) kind. -/
def listing_is_dir_type (e : FsEntry) : Bool := e.isDir

/-- Hidden decision applied to a walked entry by search and zip. -/
def walk_entry_hidden (args : Args) (e : FsEntry) : Bool :=
  is_hidden args.hidden args.posix_hidden (lastSegment e.path) (walk_is_dir_type e)

/-- Hidden decision applied to the same entry by the directory lister and
PROPFIND (via `add_pathitem`). -/
def listing_entry_hidden (args : Args) (e : FsEntry) : Bool :=
  is_hidden args.hidden args.posix_hidden (lastSegment e.path) (listing_is_dir_type e)

/-- Remove a path and everything below it (`remove_file` /
`remove_dir_all`). -/
def fs_remove (fs : Fs) (p : String) : Fs :=
  fs.filter fun e => !(e.path = p || (p ++ "/").data.isPrefixOf e.path.data)

/-- The pure renaming step of a successful `rename(2)`: move the entry at
`src`, together with its subtree, to `dest`. -/
def rename_map (fs : Fs) (src dest : String) : Fs :=
  fs.map fun e =>
    if e.path = src then { e with path := dest }
    else if (src ++ "/").data.isPrefixOf e.path.data then
      { e with path := dest ++ "/" ++ ⟨e.path.data.drop (src.length + 1)⟩ }
    else e

/-- Embedding of `tokio::fs::rename` with POSIX `rename(2)` failure modes:
the source must exist; moving a directory below itself is `EINVAL`; the
destination parent must exist as a (traversable) directory; an existing
destination may only be replaced file-over-file or directory-over-empty-
directory (`ENOTDIR`/`EISDIR`/`ENOTEMPTY` otherwise), and a replaced
destination node is removed.  The node kinds are those of the entries
themselves (`lstat`): renaming never follows the source or destination
symlink.  `none` is an `Err`, which the callers surface as 500. -/
def fs_rename (fs : Fs) (src dest : String) : Option Fs :=
  match statOf fs src with
  | none => none
  | some se =>
    if src = dest then some fs
    else if (src ++ "/").data.isPrefixOf dest.data then none
    else
      let parentOk :=
        match parentOf dest with
        | none => true
        | some par =>
          match statOf fs par with
          | some pe => pe.isDir
          | none => false
      if !parentOk then none
      else
        let srcNodeIsDir := if se.isSymlink then false else se.isDir
        let destOk :=
          match statOf fs dest with
          | none => true
          | some de =>
            match srcNodeIsDir, (if de.isSymlink then false else de.isDir) with
            | true, true => (childrenOf fs dest).isEmpty
            | true, false => false
            | false, true => false
            | false, false => true
        if destOk then
          some (rename_map (fs.filter fun e => !(e.path = dest)) src dest)
        else none

/-- Split a path into its `/`-separated segments. -/
def splitSegs : List Char → List (List Char)
  | [] => [[]]
  | c :: cs =>
    match splitSegs cs with
    | [] => [[]]
    | s :: rest => if c = '/' then [] :: s :: rest else (c :: s) :: rest

/-- Join segments back with `/`. -/
def joinSegs : List String → String
  | [] => ""
  | [x] => x
  | x :: xs => x ++ "/" ++ joinSegs xs

/-- The proper ancestors of a path, outermost first
(`"a/b/c"` ↦ `["a", "a/b"]`). -/
def properAncestors (p : String) : List String :=
  let segs := (splitSegs p.data).map fun l => (⟨l⟩ : String)
  (List.range (segs.length - 1)).map fun i => joinSegs (segs.take (i + 1))

/-- A directory entry created by the server itself. -/
def mkDirEntry (p : String) : FsEntry :=
  { path := p, isSymlink := false, isDir := true, mtime := 0, content := [],
    contained := true }

/-- Embedding of `tokio::fs::create_dir_all`: create every missing node from
the outermost ancestor down to `p` itself.  It errors (`none`) when a
proper ancestor exists as a non-directory (`ENOTDIR` — creation proceeds
top-down, so nothing has been created yet when the error hits) or when `p`
itself exists as a non-directory; an existing directory is success.
`none` is an `Err`, surfaced as 500 by the callers. -/
def create_dir_all (fs : Fs) (p : String) : Option Fs :=
  if (properAncestors p).any (fun q =>
      match statOf fs q with
      | some e => !e.isDir
      | none => false) then none
  else
    match statOf fs p with
    | some e => if e.isDir then some fs else none
    | none =>
      some ((properAncestors p ++ [p]).foldl
        (fun acc q => if (statOf acc q).isSome then acc else acc ++ [mkDirEntry q])
        fs)

/-- Embedding of `ensure_path_parent` (src/server.rs, lines 1295-1302): if the
parent does not answer `symlink_metadata`, create it recursively; a
`create_dir_all` error propagates (`?`) to the caller as 500. -/
def ensure_path_parent (fs : Fs) (p : String) : Option Fs :=
  match parentOf p with
  | none => some fs
  | some par => if (statOf fs par).isSome then some fs else create_dir_all fs par

/-- Embedding of `tokio::fs::File::create` then `io::copy`: create or truncate the file at
`p` with the given bytes. -/
def fs_write_file (fs : Fs) (p : String) (body : List Nat) : Fs :=
  if (statOf fs p).isSome then
    fs.map fun e => if e.path = p then { e with content := body, isDir := false } else e
  else
    fs ++ [{ path := p, isSymlink := false, isDir := false, mtime := 0,
             content := body, contained := true }]

/-- Whether `File::create(p)` succeeds: the target must not (resolve to) a
directory and the parent, if any, must exist as a directory. -/
def file_create_ok (fs : Fs) (p : String) : Bool :=
  (match statOf fs p with
   | some e => !e.isDir
   | none => true)
  && (match parentOf p with
      | none => true
      | some par =>
        match statOf fs par with
        | some e => e.isDir
        | none => false)

/-- Which behavior component a response came from (those whose full output
the model does not reproduce carry an empty item list). -/
inductive BehaviorKind where
  | lsDir
  | searchDir
  | zipDir
  | editFile
  | renderSpa
  | propfindDir
  | propfindFile
  | proppatch
  | lock
  deriving Repr, DecidableEq

/-- The observable response of `Server::handle`:  `plain status body` for
responses produced directly by the dispatcher (including every error path),
`sent r` for a file streamed by `handle_send_file`, and `behave k s items`
for the remaining behavior components, tagged with their kind, status, and
(for listing-shaped bodies) the `PathItem`s they render. -/
inductive HOutcome where
  | plain (status : Nat) (body : String)
  | sent (r : SendFileResult)
  | behave (k : BehaviorKind) (status : Nat) (items : List PathItem)
  deriving Repr, DecidableEq

/-- The status code of an outcome. -/
def HOutcome.status : HOutcome → Nat
  | .plain s _ => s
  | .sent r => r.status
  | .behave _ s _ => s

/-- The result of the `Destination`-header pipeline of `extract_dest`
(src/server.rs, lines 1035-1078): `missing` covers an absent or unparseable
header and a path the resolver rejects (both `400`); `denied` a destination
the guard refuses (`403`); `ok` carries the joined root-relative
destination path. -/
inductive DestHeader where
  | missing
  | denied (path : String)
  | ok (path : String)
  deriving Repr, DecidableEq

/-- Embedding of `Server::extract_dest`: the status/body the source writes on failure, or
the destination path. -/
def extract_dest (d : DestHeader) : Except (Nat × String) String :=
  match d with
  | .missing => .error (400, "")
  | .denied _ => .error (403, "Forbidden")
  | .ok p => .ok p

/-- Embedding of `Server::handle_upload` (src/server.rs, lines 415-438): ensure the parent
exists (an error there propagates as 500), `File::create` (failure ⇒ 403
`Forbidden`), stream the body into the file, 201. -/
def handle_upload (fs : Fs) (p : String) (body : List Nat) : HOutcome × Fs :=
  match ensure_path_parent fs p with
  | none => (.plain 500 "", fs)
  | some fs1 =>
    if file_create_ok fs1 p then (.plain 201 "", fs_write_file fs1 p body)
    else (.plain 403 "Forbidden", fs1)

/-- Embedding of `Server::handle_delete` (src/server.rs, lines 440-448). -/
def handle_delete (fs : Fs) (p : String) : HOutcome × Fs :=
  (.plain 204 "", fs_remove fs p)

/-- Embedding of `tokio::fs::copy`: open the source for reading (following
symlinks — a directory target fails), create or truncate `dest` with
`File::create` semantics, and write the source bytes.  `none` is an `Err`,
surfaced as 500. -/
def fs_copy (fs : Fs) (src dest : String) : Option Fs :=
  match statOf fs src with
  | none => none
  | some se =>
    if se.isDir then none
    else if file_create_ok fs dest then some (fs_write_file fs dest se.content)
    else none

/-- Embedding of `Server::handle_copy` (src/server.rs, lines 854-874): extract the
destination, refuse directory sources (`symlink_metadata`, so a symlink is
never seen as a directory here), else copy and answer 204.  A vanished
source is a handler error, surfaced as 500. -/
def handle_copy (fs : Fs) (path : String) (d : DestHeader) : HOutcome × Fs :=
  match extract_dest d with
  | .error sb => (.plain sb.1 sb.2, fs)
  | .ok dest =>
    match statOf fs path with
    | none => (.plain 500 "", fs)
    | some e =>
      if symlink_metadata_is_dir e then (.plain 403 "Forbidden", fs)
      else
        match ensure_path_parent fs dest with
        | none => (.plain 500 "", fs)
        | some fs1 =>
          match fs_copy fs1 path dest with
          | none => (.plain 500 "", fs1)
          | some fs2 => (.plain 204 "", fs2)

/-- Embedding of `Server::handle_move` (src/server.rs, lines 876-890): extract the
destination, ensure its parent, rename, 204.  Unlike `handle_copy` there is
no directory-source check. -/
def handle_move (fs : Fs) (path : String) (d : DestHeader) : HOutcome × Fs :=
  match extract_dest d with
  | .error sb => (.plain sb.1 sb.2, fs)
  | .ok dest =>
    match ensure_path_parent fs dest with
    | none => (.plain 500 "", fs)
    | some fs1 =>
      match fs_rename fs1 path dest with
      | none => (.plain 500 "", fs1)
      | some fs2 => (.plain 204 "", fs2)

/-- Query parameters the dispatcher looks at; a `Bool` records mere key
presence (`contains_key`). -/
structure QueryParams where
  zip : Bool
  q : Option String
  edit : Bool
  sort : Option String
  order : Option String
  simple : Bool
  json : Bool
  deriving Repr, DecidableEq

/-- The HTTP methods the dispatcher distinguishes; `WRITEABLE` is the probe
method answered before dispatch, `OTHER` any unknown method. -/
inductive Method where
  | GET
  | HEAD
  | OPTIONS
  | PUT
  | DELETE
  | PROPFIND
  | PROPPATCH
  | MKCOL
  | COPY
  | MOVE
  | LOCK
  | UNLOCK
  | WRITEABLE
  | OTHER (name : String)
  deriving Repr, DecidableEq

/-- Result of the external permission guard (`crate::auth::guard`), per the
spec's three outcomes: no usable credential (401), authenticated but denied
(403), or an access view. -/
inductive GuardResult where
  | noCredential
  | denied
  | ok (user : Option String) (access : AccessPaths)
  deriving Repr, DecidableEq

/-- One parsed request as `Server::handle` sees it after the external layers:
`resolved` is the outcome of `resolve_path`, `guard` the guard's verdict,
`contained` the value `is_root_contained` would report for the joined
target, `dest` the `Destination` pipeline's outcome. -/
structure Req where
  method : Method
  req_path : String
  resolved : Option String
  guard : GuardResult
  headers : SendHeaders
  depth : Option String
  dest : DestHeader
  query : QueryParams
  body : List Nat
  contained : Bool
  deriving Repr, DecidableEq

/-- Embedding of `Server::handle_ls_dir` (src/server.rs, lines 450-471) composed with the
ordering step of `send_index`: the rendered entries in their final order.
The HTML/JSON envelope itself is not modelled. -/
def handle_ls_dir (srv : Server) (fs : Fs) (path : String) (exist : Bool)
    (query : QueryParams) (access : AccessPaths) : HOutcome × Fs :=
  let paths := if exist then list_dir srv fs path path access else []
  (.behave .lsDir 200 (send_index_sort query.sort query.order paths), fs)

/-- Embedding of `Server::handle_render_index` (src/server.rs, lines 577-603): serve
`index.html` when it exists as a file, else fall back to the listing under
`render_try_index`, else 404. -/
def handle_render_index (srv : Server) (fs : Fs) (path : String)
    (query : QueryParams) (headers : SendHeaders) (head_only : Bool)
    (access : AccessPaths) : HOutcome × Fs :=
  let index_path := joinRel path "index.html"
  let isIndexFile :=
    match statOf fs index_path with
    | some e => !e.isDir
    | none => false
  if isIndexFile then
    match statOf fs index_path with
    | some e => (.sent (handle_send_file e.content e.mtime headers head_only), fs)
    | none => (.plain 500 "", fs)
  else if srv.args.render_try_index then
    handle_ls_dir srv fs path true query access
  else (.plain 404 "Not Found", fs)

/-- Embedding of `Server::handle_render_spa` (src/server.rs, lines 605-620): extensionless
paths get the root `index.html` (a missing one is a handler error ⇒ 500),
others 404. -/
def handle_render_spa (_srv : Server) (fs : Fs) (path : String)
    (headers : SendHeaders) (head_only : Bool) : HOutcome × Fs :=
  if !has_extension path then
    match statOf fs "index.html" with
    | some e => (.sent (handle_send_file e.content e.mtime headers head_only), fs)
    | none => (.plain 500 "", fs)
  else (.plain 404 "Not Found", fs)

/-- The `GET`/`HEAD` arm of the dispatcher (src/server.rs, lines 223-319).
Search and zip bodies are produced by separately modelled walk predicates;
here they only carry their kind tag. -/
def handle_get (srv : Server) (fs : Fs) (path : String) (req : Req)
    (meta : Option FsEntry) (is_dir is_file head_only : Bool)
    (access : AccessPaths) : HOutcome × Fs :=
  if is_dir then
    if srv.args.render_try_index then
      if srv.args.allow_archive && req.query.zip then
        if !srv.args.allow_archive then (.plain 404 "Not Found", fs)
        else (.behave .zipDir 200 [], fs)
      else if srv.args.allow_search && req.query.q.isSome then
        (.behave .searchDir 200 [], fs)
      else handle_render_index srv fs path req.query req.headers head_only access
    else if srv.args.render_index || srv.args.render_spa then
      handle_render_index srv fs path req.query req.headers head_only access
    else if req.query.zip then
      if !srv.args.allow_archive then (.plain 404 "Not Found", fs)
      else (.behave .zipDir 200 [], fs)
    else if srv.args.allow_search && req.query.q.isSome then
      (.behave .searchDir 200 [], fs)
    else handle_ls_dir srv fs path true req.query access
  else if is_file then
    if req.query.edit then (.behave .editFile 200 [], fs)
    else
      match meta with
      | some e => (.sent (handle_send_file e.content e.mtime req.headers head_only), fs)
      | none => (.plain 500 "", fs)
  else if srv.args.render_spa then
    handle_render_spa srv fs path req.headers head_only
  else if srv.args.allow_upload && req.req_path.data.getLast? = some '/' then
    handle_ls_dir srv fs path false req.query access
  else (.plain 404 "Not Found", fs)

/-- Embedding of `Server::handle` (src/server.rs, lines 131-413): the request dispatcher,
from path resolution onward.  The asset fast path (which answers before
authorization and never reaches this logic) and the access log are outside
the model.  Branches follow the source order exactly: resolution failure
403; guard 401/403; `WRITEABLE` probe 200; single-file mode; metadata
probe; symlink containment 404; then the method table. -/
def handle (srv : Server) (fs : Fs) (req : Req) : HOutcome × Fs :=
  match req.resolved with
  | none => (.plain 403 "Forbidden", fs)
  | some relative_path =>
    match req.guard with
    | .noCredential => (.plain 401 "", fs)
    | .denied => (.plain 403 "Forbidden", fs)
    | .ok _user access =>
      if req.method = .WRITEABLE then (.plain 200 "", fs)
      else
        let head_only := req.method == .HEAD
        if srv.args.path_is_file then
          if srv.single_file_req_paths.contains req.req_path then
            (.sent (handle_send_file srv.served_file srv.served_mtime req.headers
              head_only), fs)
          else (.plain 404 "Not Found", fs)
        else
          let path := relative_path
          let meta := statOf fs path
          let is_miss := meta.isNone
          let is_dir :=
            match meta with
            | some e => e.isDir
            | none => false
          let is_file :=
            match meta with
            | some e => !e.isDir
            | none => false
          let size :=
            match meta with
            | some e => e.content.length
            | none => 0
          if !srv.args.allow_symlink && !is_miss && !req.contained then
            (.plain 404 "Not Found", fs)
          else
            match req.method with
            | .GET | .HEAD =>
              handle_get srv fs path req meta is_dir is_file head_only access
            | .OPTIONS => (.plain 200 "", fs)
            | .PUT =>
              if !srv.args.allow_upload
                  || (!srv.args.allow_delete && is_file && size > 0) then
                (.plain 403 "Forbidden", fs)
              else handle_upload fs path req.body
            | .DELETE =>
              if !srv.args.allow_delete then (.plain 403 "Forbidden", fs)
              else if !is_miss then handle_delete fs path
              else (.plain 404 "Not Found", fs)
            | .PROPFIND =>
              if is_dir then
                let access2 :=
                  if access.perm.indexonly then AccessPaths.mk .ReadOnly []
                  else access
                let r := handle_propfind_dir srv fs path req.depth access2
                (.behave .propfindDir r.1 r.2, fs)
              else if is_file then
                match to_pathitem srv fs path "" with
                | some item => (.behave .propfindFile 207 [item], fs)
                | none => (.plain 404 "Not Found", fs)
              else (.plain 404 "Not Found", fs)
            | .PROPPATCH =>
              if is_file then (.behave .proppatch 207 [], fs)
              else (.plain 404 "Not Found", fs)
            | .MKCOL =>
              if !srv.args.allow_upload then (.plain 403 "Forbidden", fs)
              else if !is_miss then (.plain 405 "Already exists", fs)
              else
                match create_dir_all fs path with
                | none => (.plain 500 "", fs)
                | some fs1 => (.plain 201 "", fs1)
            | .COPY =>
              if !srv.args.allow_upload then (.plain 403 "Forbidden", fs)
              else if is_miss then (.plain 404 "Not Found", fs)
              else handle_copy fs path req.dest
            | .MOVE =>
              if !srv.args.allow_upload || !srv.args.allow_delete then
                (.plain 403 "Forbidden", fs)
              else if is_miss then (.plain 404 "Not Found", fs)
              else handle_move fs path req.dest
            | .LOCK =>
              if is_file then (.behave .lock 200 [], fs)
              else (.plain 404 "Not Found", fs)
            | .UNLOCK =>
              if is_miss then (.plain 404 "Not Found", fs)
              else (.plain 200 "", fs)
            | .WRITEABLE => (.plain 200 "", fs)
            | .OTHER _ => (.plain 405 "", fs)

/-! ### Concrete fixtures used by individual claims -/

/-- C3 fixture: permissive flags, directory serving mode. -/
def argsC3 : Args :=
  ⟨true, true, false, false, false, false, false, true, [], false, false⟩

/-- C3 fixture server. -/
def srvC3 : Server := ⟨argsC3, [], [], 0⟩

/-- C3 fixture tree: a directory `d` containing one file. -/
def fsC3 : Fs :=
  [⟨"d", false, true, 5, [], true⟩, ⟨"d/f", false, false, 6, [1, 2], true⟩]

/-- C3 fixture request: `MOVE /d` with `Destination` resolving to `e`. -/
def reqC3 : Req :=
  ⟨.MOVE, "/d", some "d", .ok none ⟨.ReadWrite, []⟩, ⟨none, none, none, none⟩,
    none, .ok "e", ⟨false, none, false, none, none, false, false⟩, [], true⟩

/-- C4 fixture server. -/
def srvC4 : Server :=
  ⟨⟨true, true, true, true, false, false, false, true, [], false, false⟩, [], [], 0⟩

/-- C4 fixture tree: a directory `d` with one visible child file. -/
def fsC4 : Fs :=
  [⟨"d", false, true, 5, [], true⟩, ⟨"d/f", false, false, 6, [1, 2], true⟩]

/-- C7 fixture flags: one directory-only hidden pattern. -/
def argsC7 : Args :=
  ⟨true, true, true, true, false, false, false, true, ["secret/"], false, false⟩

/-- C7 fixture server. -/
def srvC7 : Server := ⟨argsC7, [], [], 0⟩

/-- C7 fixture entry: a symlink named `secret` whose target is a directory,
canonicalising inside the root. -/
def entC7 : FsEntry := ⟨"secret", true, true, 3, [], true⟩

/-- C7 fixture tree. -/
def fsC7 : Fs := [entC7]

/-- C8 fixture flags: upload and delete both enabled. -/
def argsC8 : Args :=
  ⟨true, true, false, false, false, false, false, true, [], false, false⟩

/-- C8 fixture server. -/
def srvC8 : Server := ⟨argsC8, [], [], 0⟩

/-- C8 fixture tree: an (empty) directory `d`. -/
def fsC8 : Fs := [⟨"d", false, true, 0, [], true⟩]

/-- C8 fixture request: `PUT /d` with a one-byte body. -/
def reqC8 : Req :=
  ⟨.PUT, "/d", some "d", .ok none ⟨.ReadWrite, []⟩, ⟨none, none, none, none⟩,
    none, .missing, ⟨false, none, false, none, none, false, false⟩, [9], true⟩

/-- C9 fixture flags: symlinks disallowed, everything else permissive. -/
def argsC9 : Args :=
  ⟨true, true, true, true, false, false, false, false, [], false, false⟩

/-- C9 fixture server. -/
def srvC9 : Server := ⟨argsC9, [], [], 0⟩

/-- C9 fixture tree: an existing entry whose canonical path escapes the
root. -/
def fsC9 : Fs := [⟨"x", true, false, 0, [1], false⟩]

/-- C9 fixture request: the `WRITEABLE` probe aimed at that entry. -/
def reqC9 : Req :=
  ⟨.WRITEABLE, "/x", some "x", .ok none ⟨.ReadWrite, []⟩, ⟨none, none, none, none⟩,
    none, .missing, ⟨false, none, false, none, none, false, false⟩, [], false⟩

/-- C10 fixture server: single-file mode serving a two-byte file reachable
under three canonical request paths. -/
def srvC10 : Server :=
  ⟨⟨true, true, true, true, false, false, false, true, [], false, true⟩,
    ["/", "", "/f.txt"], [7, 8], 9⟩

/-- C10 fixture request: a `PUT` to the canonical root path. -/
def reqC10 : Req :=
  ⟨.PUT, "/", some "", .ok none ⟨.ReadWrite, []⟩, ⟨none, none, none, none⟩,
    none, .missing, ⟨false, none, false, none, none, false, false⟩, [1], true⟩

/-- C5 fixture: a file whose name sorts before... -/
def itemA5 : PathItem := ⟨.File, "a.txt", 0, some 1⟩

/-- C5 fixture: ...a directory whose name sorts after it. -/
def itemB5 : PathItem := ⟨.Dir, "b", 0, none⟩

/-! ## Theorems -/

theorem wrapSub_of_le {a b : Nat} (h : b ≤ a) (h2 : a - b < U64) :
    wrapSub a b = a - b := by
  unfold wrapSub
  have h3 : a + U64 - b = a - b + U64 := by omega
  rw [h3, Nat.add_mod_right, Nat.mod_eq_of_lt h2]

/-- Claim C1: for a GET of an existing file whose `Range` header parses as
`bytes=<s>-<e?>`, the cases the code treats as invalid (`e` absent with
`s ≥ size`, or `e < s`) do produce 416 with `Content-Range: bytes */size`;
but a range with `e` present, `e ≥ s` and `s ≥ size` (at `bytes=20-25` on a
10-byte file) passes the satisfiability test, is answered 206 with the
nonsensical `Content-Range: bytes 20-9/10`, and its `Content-Length`
computation `end - start + 1` underflows `u64`, wrapping to `2^64 - 10` —
not the 416 the specification's error table requires. -/
theorem c1_range_outside_file :
    (parse_range (some "bytes=20-") = some ⟨20, none⟩
      ∧ (handle_send_file [0, 1, 2, 3, 4, 5, 6, 7, 8, 9] 0
          ⟨none, none, some "bytes=20-", none⟩ false).status = 416
      ∧ (handle_send_file [0, 1, 2, 3, 4, 5, 6, 7, 8, 9] 0
          ⟨none, none, some "bytes=20-", none⟩ false).contentRange
          = some "bytes */10")
    ∧ (parse_range (some "bytes=25-20") = some ⟨25, some 20⟩
      ∧ (handle_send_file [0, 1, 2, 3, 4, 5, 6, 7, 8, 9] 0
          ⟨none, none, some "bytes=25-20", none⟩ false).status = 416)
    ∧ (parse_range (some "bytes=20-25") = some ⟨20, some 25⟩
      ∧ (handle_send_file [0, 1, 2, 3, 4, 5, 6, 7, 8, 9] 0
          ⟨none, none, some "bytes=20-25", none⟩ false).status = 206
      ∧ (handle_send_file [0, 1, 2, 3, 4, 5, 6, 7, 8, 9] 0
          ⟨none, none, some "bytes=20-25", none⟩ false).contentRange
          = some "bytes 20-9/10"
      ∧ (handle_send_file [0, 1, 2, 3, 4, 5, 6, 7, 8, 9] 0
          ⟨none, none, some "bytes=20-25", none⟩ false).contentLength
          = some (2 ^ 64 - 10)) := by
  refine ⟨⟨by decide, by decide, by decide⟩, ⟨by decide, by decide⟩,
    by decide, by decide, by decide, by decide⟩

/-- Claim C2: for `0 ≤ s ≤ e < size` a `Range: bytes=s-e` GET (with no
conditional headers and no failing `If-Range` validator) yields 206 with
`Content-Range: bytes s-e/size`, `Content-Length = e-s+1`, and exactly the
bytes `file[s..=e]`; and when `e ≥ size` (with `s < size`) the end is
capped at `size-1` before headers and body are produced. -/
theorem c2_range_roundtrip (bytes : List Nat) (mtimeMs s e : Nat) (hdr : String)
    (ir : Option IfRangeVal)
    (hsize : bytes.length < U64)
    (hp : parse_range (some hdr) = some ⟨s, some e⟩)
    (hir : ∀ v, ir = some v →
      if_range_is_modified v (etagOf mtimeMs bytes.length) (mtimeMs / 1000) = false)
    (hse : s ≤ e) :
    (e < bytes.length →
      handle_send_file bytes mtimeMs ⟨none, none, some hdr, ir⟩ false =
        { status := 206
          etag := some (etagOf mtimeMs bytes.length)
          lastModified := some (mtimeMs / 1000)
          acceptRanges := true
          contentRange := some ("bytes " ++ toString s ++ "-" ++ toString e
            ++ "/" ++ toString bytes.length)
          contentLength := some (e - s + 1)
          body := (bytes.drop s).take (e - s + 1) }
      ∧ ((bytes.drop s).take (e - s + 1)).length = e - s + 1
      ∧ ∀ i, i < e - s + 1 →
          ((bytes.drop s).take (e - s + 1))[i]? = bytes[s + i]?)
    ∧ (bytes.length ≤ e → s < bytes.length →
      handle_send_file bytes mtimeMs ⟨none, none, some hdr, ir⟩ false =
        { status := 206
          etag := some (etagOf mtimeMs bytes.length)
          lastModified := some (mtimeMs / 1000)
          acceptRanges := true
          contentRange := some ("bytes " ++ toString s ++ "-"
            ++ toString (bytes.length - 1) ++ "/" ++ toString bytes.length)
          contentLength := some (bytes.length - s)
          body := bytes.drop s }) := by
  have heval : handle_send_file bytes mtimeMs ⟨none, none, some hdr, ir⟩ false =
      { status := 206
        etag := some (etagOf mtimeMs bytes.length)
        lastModified := some (mtimeMs / 1000)
        acceptRanges := true
        contentRange := some ("bytes " ++ toString s ++ "-"
          ++ toString (min e (wrapSub bytes.length 1)) ++ "/"
          ++ toString bytes.length)
        contentLength := some ((wrapSub (min e (wrapSub bytes.length 1)) s + 1) % U64)
        body := (bytes.drop s).take
          ((wrapSub (min e (wrapSub bytes.length 1)) s + 1) % U64) } := by
    unfold handle_send_file
    cases ir with
    | none =>
      simp only [hp, ge_iff_le, hse, decide_eq_true_eq, if_true, Option.getD_some]
      simp [hse]
    | some v =>
      have hv := hir v rfl
      simp only [hp, hv, ge_iff_le, hse, decide_eq_true_eq, if_true, Option.getD_some]
      simp [hse]
  constructor
  · intro hes
    have hslt : s < bytes.length := lt_of_le_of_lt hse hes
    have hw1 : wrapSub bytes.length 1 = bytes.length - 1 :=
      wrapSub_of_le (by omega) (by omega)
    have hmin : min e (wrapSub bytes.length 1) = e := by
      rw [hw1]; exact Nat.min_eq_left (by omega)
    have hws : wrapSub e s = e - s := wrapSub_of_le hse (by omega)
    have hmod : (e - s + 1) % U64 = e - s + 1 := Nat.mod_eq_of_lt (by omega)
    refine ⟨?_, ?_, ?_⟩
    · rw [heval, hmin, hws, hmod]
    · rw [List.length_take, List.length_drop]; omega
    · intro i hi
      rw [List.getElem?_take, if_pos hi, List.getElem?_drop]
  · intro hle hs
    have hw1 : wrapSub bytes.length 1 = bytes.length - 1 :=
      wrapSub_of_le (by omega) (by omega)
    have hmin : min e (wrapSub bytes.length 1) = bytes.length - 1 := by
      rw [hw1]; exact Nat.min_eq_right (by omega)
    have hws : wrapSub (bytes.length - 1) s = bytes.length - 1 - s :=
      wrapSub_of_le (by omega) (by omega)
    have harith : bytes.length - 1 - s + 1 = bytes.length - s := by omega
    have hmod : (bytes.length - s) % U64 = bytes.length - s :=
      Nat.mod_eq_of_lt (by omega)
    have htake : (bytes.drop s).take (bytes.length - s) = bytes.drop s :=
      List.take_of_length_le (by rw [List.length_drop])
    rw [heval, hmin, hws, harith, hmod, htake]

/-- Witness for C2 at a concrete input: `bytes=1-3` on a five-byte file. -/
theorem c2_range_roundtrip_witness :
    (handle_send_file [10, 11, 12, 13, 14] 7
      ⟨none, none, some "bytes=1-3", none⟩ false).status = 206
    ∧ (handle_send_file [10, 11, 12, 13, 14] 7
        ⟨none, none, some "bytes=1-3", none⟩ false).body = [11, 12, 13]
    ∧ (handle_send_file [10, 11, 12, 13, 14] 7
        ⟨none, none, some "bytes=1-3", none⟩ false).contentRange
        = some "bytes 1-3/5" := by
  have h := ((c2_range_roundtrip [10, 11, 12, 13, 14] 7 1 3 "bytes=1-3" none
      (by decide) (by decide) (fun v hv => nomatch hv) (by decide)).1
      (by decide)).1
  rw [h]
  refine ⟨rfl, by decide, by decide⟩

/-- Claim C6: the ETag emitted for a file with metadata `(mtime_ms, size)` is
exactly `"<mtime_ms>-<size>"` with the surrounding double quotes; a GET of
the unchanged file carrying that ETag in `If-None-Match` answers 304 with
an empty body; and `If-None-Match` takes precedence over
`If-Modified-Since` (the response is independent of the latter whenever the
former is present). -/
theorem c6_etag_conditional (bytes : List Nat) (mtimeMs : Nat)
    (imsA imsB : Option Nat) (l : List String) (rng : Option String)
    (ir : Option IfRangeVal) (ho : Bool) :
    (handle_send_file bytes mtimeMs ⟨none, none, none, none⟩ false).etag
      = some ("\"" ++ toString mtimeMs ++ "-" ++ toString bytes.length ++ "\"")
    ∧ (handle_send_file bytes mtimeMs
        ⟨some [etagOf mtimeMs bytes.length], imsA, rng, ir⟩ ho).status = 304
    ∧ (handle_send_file bytes mtimeMs
        ⟨some [etagOf mtimeMs bytes.length], imsA, rng, ir⟩ ho).body = []
    ∧ handle_send_file bytes mtimeMs ⟨some l, imsA, rng, ir⟩ ho
      = handle_send_file bytes mtimeMs ⟨some l, imsB, rng, ir⟩ ho := by
  have hcached : ∀ ims,
      handle_send_file bytes mtimeMs
        ⟨some [etagOf mtimeMs bytes.length], ims, rng, ir⟩ ho =
      { status := 304, etag := none, lastModified := none, acceptRanges := false,
        contentRange := none, contentLength := none, body := [] } := by
    intro ims
    unfold handle_send_file
    simp [if_none_match_passes, List.contains]
  refine ⟨rfl, ?_, ?_, rfl⟩
  · rw [hcached]
  · rw [hcached]

/-- Claim C10: in single-file mode, once a request has passed authorization
and its method is not `WRITEABLE`, a request path equal to one of the three
canonical URIs is answered by streaming the served file — for any method,
with the same result as a GET (HEAD only suppresses the body) — leaving the
filesystem untouched; any other path is 404 for every method; the behavior
table is never consulted. -/
theorem c10_single_file_mode (srv : Server) (fs : Fs) (req : Req) (rel : String)
    (u : Option String) (a : AccessPaths)
    (hpf : srv.args.path_is_file = true)
    (hres : req.resolved = some rel)
    (hguard : req.guard = .ok u a)
    (hw : req.method ≠ .WRITEABLE) :
    (srv.single_file_req_paths.contains req.req_path = true →
      handle srv fs req =
        (.sent (handle_send_file srv.served_file srv.served_mtime req.headers
          (req.method == .HEAD)), fs)
      ∧ (req.method ≠ .HEAD →
          handle srv fs req = handle srv fs { req with method := .GET }))
    ∧ (srv.single_file_req_paths.contains req.req_path = false →
        handle srv fs req = (.plain 404 "Not Found", fs)) := by
  constructor
  · intro hc
    constructor
    · unfold handle
      simp only [hres, hguard, if_neg hw, hpf, hc, if_true]
    · intro hh
      unfold handle
      have hbeq : (req.method == Method.HEAD) = false :=
        beq_eq_false_iff_ne.mpr hh
      simp only [hres, hguard, if_neg hw, hpf, hc, if_true, hbeq]
      have hgw : (Method.GET : Method) ≠ .WRITEABLE := by decide
      simp only [if_neg hgw]
      rfl
  · intro hc
    unfold handle
    simp only [hres, hguard, if_neg hw, hpf, hc, if_true]
    rfl

/-- Witness for C10: a `PUT` to the canonical path of the served file streams
the file exactly as a GET would, and a `PUT` to any other path is 404. -/
theorem c10_single_file_mode_witness :
    handle srvC10 [] reqC10 =
      (.sent (handle_send_file [7, 8] 9 ⟨none, none, none, none⟩ false), [])
    ∧ handle srvC10 [] { reqC10 with req_path := "/nope" } =
      (.plain 404 "Not Found", []) := by
  have h1 := (c10_single_file_mode srvC10 [] reqC10 "" none ⟨.ReadWrite, []⟩
    rfl rfl rfl (by decide)).1 (by decide)
  have h2 := (c10_single_file_mode srvC10 [] { reqC10 with req_path := "/nope" }
    "" none ⟨.ReadWrite, []⟩ rfl rfl rfl (by decide)).2 (by decide)
  exact ⟨h1.1, h2⟩

/-- Counterexample to C9 as stated: a request with the custom `WRITEABLE`
probe method, aimed at an existing entry whose canonical path escapes the
root while symlinks are disallowed, is answered 200 (the probe returns
before the containment check) — not 404 as the claim requires of "every
request". -/
theorem c9_writeable_counterexample :
    handle srvC9 fsC9 reqC9 = (.plain 200 "", fsC9)
    ∧ argsC9.allow_symlink = false
    ∧ (statOf fsC9 "x").isSome = true
    ∧ reqC9.contained = false
    ∧ (handle srvC9 fsC9 reqC9).1.status ≠ 404 := by
  exact ⟨by decide, by decide, by decide, by decide, by decide⟩

/-- Claim C9 as amended: in directory-serving mode, for every request past
the guard whose method is not `WRITEABLE`, if symlinks are disallowed and
the resolved target exists but is not root-contained, the response is
exactly 404 `Not Found` — never 403 — with the filesystem untouched and no
behavior component invoked; and the same containment check makes
`to_pathitem` (hence every listing and PROPFIND) silently omit escaping
symlink entries. -/
theorem c9_symlink_guard (srv : Server) (fs : Fs) (req : Req) (rel : String)
    (u : Option String) (a : AccessPaths) (e : FsEntry)
    (hpf : srv.args.path_is_file = false)
    (hres : req.resolved = some rel)
    (hguard : req.guard = .ok u a)
    (hw : req.method ≠ .WRITEABLE)
    (hstat : statOf fs rel = some e)
    (hsym : srv.args.allow_symlink = false)
    (hcont : req.contained = false) :
    handle srv fs req = (.plain 404 "Not Found", fs)
    ∧ (∀ (srv2 : Server) (fs2 : Fs) (p b : String) (e2 : FsEntry),
        srv2.args.allow_symlink = false → statOf fs2 p = some e2 →
        e2.isSymlink = true → e2.contained = false →
        to_pathitem srv2 fs2 p b = none) := by
  constructor
  · unfold handle
    simp only [hres, hguard, if_neg hw, hpf, hstat, hsym, hcont]
    rfl
  · intro srv2 fs2 p b e2 h1 h2 h3 h4
    unfold to_pathitem
    simp only [h2, h1, h3, h4]
    rfl

/-- Witness for the amended C9: a `GET` of the escaping entry is 404 and the
entry is omitted from path items. -/
theorem c9_symlink_guard_witness :
    handle srvC9 fsC9 { reqC9 with method := .GET } = (.plain 404 "Not Found", fsC9)
    ∧ to_pathitem srvC9 fsC9 "x" "" = none := by
  have h := c9_symlink_guard srvC9 fsC9 { reqC9 with method := .GET } "x" none
    ⟨.ReadWrite, []⟩ ⟨"x", true, false, 0, [1], false⟩
    rfl rfl rfl (by decide) (by decide) rfl rfl
  exact ⟨h.1, h.2 srvC9 fsC9 "x" "" ⟨"x", true, false, 0, [1], false⟩
    rfl (by decide) rfl rfl⟩

/-- Counterexample to C3 as stated: `MOVE` of the directory `d` (upload and
delete enabled, valid destination `e`) succeeds with 204 and renames the
directory and its subtree — the response is not 403 and the filesystem does
change. -/
theorem c3_move_dir_counterexample :
    handle srvC3 fsC3 reqC3 =
      (.plain 204 "",
        [⟨"e", false, true, 5, [], true⟩, ⟨"e/f", false, false, 6, [1, 2], true⟩])
    ∧ ((statOf fsC3 "d").map fun e => e.isDir) = some true
    ∧ argsC3.allow_upload = true
    ∧ argsC3.allow_delete = true
    ∧ (handle srvC3 fsC3 reqC3).1.status ≠ 403
    ∧ (handle srvC3 fsC3 reqC3).2 ≠ fsC3 := by
  exact ⟨by decide, by decide, by decide, by decide, by decide, by decide⟩

/-- Claim C3 as amended: `MOVE` does not refuse directory sources.  With
upload and delete enabled and a valid, guard-approved `Destination`, a MOVE
of an existing directory is never answered 403: the rename is attempted,
and when it succeeds — e.g. a fresh root-level destination — the directory
(subtree included) is renamed and 204 returned; a failing OS rename or
parent creation is surfaced as 500.  Only `COPY` refuses a directory
source with 403, leaving the filesystem unchanged. -/
theorem c3_move_dir_renames (srv : Server) (fs : Fs) (req : Req)
    (rel dest : String) (u : Option String) (a : AccessPaths) (e : FsEntry)
    (hpf : srv.args.path_is_file = false)
    (hres : req.resolved = some rel)
    (hguard : req.guard = .ok u a)
    (hm : req.method = .MOVE)
    (hup : srv.args.allow_upload = true)
    (hdel : srv.args.allow_delete = true)
    (hstat : statOf fs rel = some e)
    (hdir : e.isDir = true)
    (hcont : req.contained = true)
    (hdest : req.dest = .ok dest) :
    (handle srv fs req).1.status ≠ 403
    ∧ (statOf fs dest = none → parentOf dest = none →
        (rel ++ "/").data.isPrefixOf dest.data = false → rel ≠ dest →
        handle srv fs req =
          (.plain 204 "",
            rename_map (fs.filter fun e2 => !(e2.path = dest)) rel dest))
    ∧ (e.isSymlink = false →
        handle srv fs { req with method := .COPY } = (.plain 403 "Forbidden", fs)) := by
  have hw : req.method ≠ .WRITEABLE := by rw [hm]; decide
  have hmove : handle srv fs req = handle_move fs rel req.dest := by
    unfold handle
    simp only [hres, hguard, if_neg hw, hpf, hstat, hcont, hm, hup, hdel]
    simp
  refine ⟨?_, ?_, ?_⟩
  · rw [hmove]
    unfold handle_move extract_dest
    rw [hdest]
    dsimp only
    cases he : ensure_path_parent fs dest with
    | none => dsimp only [HOutcome.status]; decide
    | some fs1 =>
      dsimp only
      cases hr : fs_rename fs1 rel dest with
      | none => dsimp only [HOutcome.status]; decide
      | some fs2 => dsimp only [HOutcome.status]; decide
  · intro h1 h2 h3 h4
    have hens : ensure_path_parent fs dest = some fs := by
      unfold ensure_path_parent
      simp [h2]
    have h3a : ¬(rel.data ++ ['/'] <+: dest.data) := by
      intro hpre
      have hb : (rel ++ "/").data.isPrefixOf dest.data = true := by
        rw [List.isPrefixOf_iff_prefix, String.data_append]
        exact hpre
      rw [h3] at hb
      exact absurd hb (by simp)
    have hren : fs_rename fs rel dest =
        some (rename_map (fs.filter fun e2 => !(e2.path = dest)) rel dest) := by
      unfold fs_rename
      rw [hstat]
      simp [h1, h2, h4, h3a]
    rw [hmove]
    unfold handle_move extract_dest
    rw [hdest]
    simp [hens, hren]
  · intro hsl
    unfold handle
    have hw2 : (Method.COPY : Method) ≠ .WRITEABLE := by decide
    simp only [hres, hguard, if_neg hw2, hpf, hstat, hcont, hup, hdest]
    unfold handle_copy extract_dest symlink_metadata_is_dir
    simp [hstat, hsl, hdir]

/-- Witness for the amended C3 at the concrete fixture: the fresh destination
`e` is renamed to with 204, never 403; `COPY` of the same directory is
403. -/
theorem c3_move_dir_renames_witness :
    handle srvC3 fsC3 reqC3 =
      (.plain 204 "", rename_map (fsC3.filter fun e2 => !(e2.path = "e")) "d" "e")
    ∧ (handle srvC3 fsC3 reqC3).1.status ≠ 403
    ∧ handle srvC3 fsC3 { reqC3 with method := .COPY } =
      (.plain 403 "Forbidden", fsC3) := by
  have h := c3_move_dir_renames srvC3 fsC3 reqC3 "d" "e" none ⟨.ReadWrite, []⟩
    ⟨"d", false, true, 5, [], true⟩ rfl rfl rfl rfl rfl rfl (by decide) rfl rfl rfl
  exact ⟨h.2.1 (by decide) (by decide) (by decide) (by decide), h.1, h.2.2 rfl⟩

/-- Counterexample to C8 as stated: a `PUT` to an existing directory, with
upload and delete both enabled (so neither of the claim's two 403 causes
holds), still returns 403, because `File::create` fails on a directory
inside `handle_upload`. -/
theorem c8_put_counterexample :
    handle srvC8 fsC8 reqC8 = (.plain 403 "Forbidden", fsC8)
    ∧ argsC8.allow_upload = true
    ∧ argsC8.allow_delete = true
    ∧ ((statOf fsC8 "d").any fun e => !e.isDir) = false := by
  exact ⟨by decide, by decide, by decide, by decide⟩

/-- Claim C8 as amended: a `PUT` answers 403 exactly when upload is disabled,
or the target is an existing non-empty file while delete is disabled, or
the parent pipeline succeeds but `File::create` on the target fails (e.g.
the target is an existing directory); when the dispatcher gate passes but
`ensure_path_parent` itself fails (an ancestor exists as a regular file)
the answer is 500 with nothing written; in every remaining case —
including an existing zero-length file with delete disabled — the body is
written to the target and the status is 201. -/
theorem c8_put_gate (srv : Server) (fs : Fs) (req : Req) (rel : String)
    (u : Option String) (a : AccessPaths)
    (hpf : srv.args.path_is_file = false)
    (hres : req.resolved = some rel)
    (hguard : req.guard = .ok u a)
    (hm : req.method = .PUT)
    (hcont : req.contained = true) :
    ((handle srv fs req).1 = .plain 403 "Forbidden" ↔
      (srv.args.allow_upload = false
        ∨ (srv.args.allow_delete = false
            ∧ ((statOf fs rel).any fun e2 =>
                !e2.isDir && decide (0 < e2.content.length)) = true)
        ∨ (∃ fs1, ensure_path_parent fs rel = some fs1
            ∧ file_create_ok fs1 rel = false)))
    ∧ (∀ fs1, srv.args.allow_upload = true →
        (!srv.args.allow_delete
          && ((statOf fs rel).any fun e2 =>
              !e2.isDir && decide (0 < e2.content.length))) = false →
        ensure_path_parent fs rel = some fs1 →
        file_create_ok fs1 rel = true →
        handle srv fs req = (.plain 201 "", fs_write_file fs1 rel req.body))
    ∧ (srv.args.allow_upload = true →
        (!srv.args.allow_delete
          && ((statOf fs rel).any fun e2 =>
              !e2.isDir && decide (0 < e2.content.length))) = false →
        ensure_path_parent fs rel = none →
        handle srv fs req = (.plain 500 "", fs)) := by
  have hw : req.method ≠ .WRITEABLE := by rw [hm]; decide
  have heval : handle srv fs req =
      (if !srv.args.allow_upload
          || (!srv.args.allow_delete
              && ((statOf fs rel).any fun e2 =>
                  !e2.isDir && decide (0 < e2.content.length))) then
        (.plain 403 "Forbidden", fs)
      else handle_upload fs rel req.body) := by
    unfold handle
    simp only [hres, hguard, if_neg hw, hpf, hcont, hm]
    cases hst : statOf fs rel with
    | none => simp
    | some e => simp [Bool.and_assoc]
  refine ⟨?_, ?_, ?_⟩
  · rw [heval]
    cases hu : srv.args.allow_upload with
    | false => simp [hu]
    | true =>
      cases hg : (!srv.args.allow_delete
          && ((statOf fs rel).any fun e2 =>
              !e2.isDir && decide (0 < e2.content.length))) with
      | true =>
        have hd : srv.args.allow_delete = false := by
          cases hdd : srv.args.allow_delete
          · rfl
          · rw [hdd] at hg
            exact absurd hg (by simp)
        have hany : ((statOf fs rel).any fun e2 =>
            !e2.isDir && decide (0 < e2.content.length)) = true := by
          rw [hd] at hg
          simpa using hg
        simp [hu, hg, hd, hany]
      | false =>
        have h2f : ¬(srv.args.allow_delete = false
            ∧ ((statOf fs rel).any fun e2 =>
                !e2.isDir && decide (0 < e2.content.length)) = true) := by
          rintro ⟨hd, ha⟩
          rw [hd, ha] at hg
          exact absurd hg (by simp)
        unfold handle_upload
        cases he : ensure_path_parent fs rel with
        | none => simp [hu, hg, h2f, he]
        | some fs1 =>
          cases hck : file_create_ok fs1 rel with
          | true => simp [hu, hg, h2f, he, hck]
          | false => simp [hu, hg, h2f, he, hck]
  · intro fs1 hu hg he hck
    rw [heval]
    unfold handle_upload
    simp [hu, hg, he, hck]
  · intro hu hg he
    rw [heval]
    unfold handle_upload
    simp [hu, hg, he]

/-- Witness for the amended C8: `PUT` over an existing zero-length file with
delete disabled succeeds with 201 and writes the body; `PUT` on an existing
directory is 403 by the create-failure disjunct. -/
theorem c8_put_gate_witness :
    handle ⟨⟨true, false, false, false, false, false, false, true, [], false,
        false⟩, [], [], 0⟩
      [⟨"z", false, false, 4, [], true⟩]
      ⟨.PUT, "/z", some "z", .ok none ⟨.ReadWrite, []⟩, ⟨none, none, none, none⟩,
        none, .missing, ⟨false, none, false, none, none, false, false⟩, [5], true⟩
      = (.plain 201 "", [⟨"z", false, false, 4, [5], true⟩])
    ∧ (handle srvC8 fsC8 reqC8).1 = .plain 403 "Forbidden" := by
  constructor
  · have h := (c8_put_gate
      ⟨⟨true, false, false, false, false, false, false, true, [], false,
        false⟩, [], [], 0⟩
      [⟨"z", false, false, 4, [], true⟩]
      ⟨.PUT, "/z", some "z", .ok none ⟨.ReadWrite, []⟩, ⟨none, none, none, none⟩,
        none, .missing, ⟨false, none, false, none, none, false, false⟩, [5], true⟩
      "z" none ⟨.ReadWrite, []⟩ rfl rfl rfl rfl rfl).2.1
      [⟨"z", false, false, 4, [], true⟩] rfl (by decide) (by decide) (by decide)
    rw [h]
    decide
  · exact (c8_put_gate srvC8 fsC8 reqC8 "d" none ⟨.ReadWrite, []⟩
      rfl rfl rfl rfl rfl).1.mpr (Or.inr (Or.inr ⟨fsC8, by decide, by decide⟩))

/-- Counterexample to C4 as stated: `Depth: 2` on an existing directory is
not answered 400 — it parses as a `u32` and is treated like depth 1,
returning 207 with the directory and its children. -/
theorem c4_depth2_counterexample :
    handle_propfind_dir srvC4 fsC4 "d" (some "2") ⟨.ReadWrite, []⟩
      = (207, [⟨.Dir, "d", 5, none⟩, ⟨.File, "d/f", 6, some 2⟩])
    ∧ (handle_propfind_dir srvC4 fsC4 "d" (some "2") ⟨.ReadWrite, []⟩).1 ≠ 400 := by
  exact ⟨by decide, by decide⟩

/-- Claim C4 as amended: for PROPFIND on an existing directory, a missing
`Depth` header defaults to 1; a header value that does not parse as a `u32`
(`infinity`, garbage, numbers ≥ 2^32) is 400 with no multistatus items; a
value parsing as 0 yields 207 with only the directory itself; and any
nonzero parsed value — including `2` — yields 207 with the directory plus
its visible children, exactly as depth 1. -/
theorem c4_propfind_depth (srv : Server) (fs : Fs) (dir : String)
    (access : AccessPaths) :
    handle_propfind_dir srv fs dir none access
      = handle_propfind_dir srv fs dir (some "1") access
    ∧ (∀ v : String, parseU32 v.data = none →
        handle_propfind_dir srv fs dir (some v) access = (400, []))
    ∧ (∀ v : String, parseU32 v.data = some 0 →
        handle_propfind_dir srv fs dir (some v) access
          = (207, (to_pathitem srv fs dir "").toList))
    ∧ (∀ (v : String) (d : Nat), parseU32 v.data = some d → d ≠ 0 →
        handle_propfind_dir srv fs dir (some v) access
          = (207, (to_pathitem srv fs dir "").toList
              ++ list_dir srv fs dir "" access)) := by
  refine ⟨?_, ?_, ?_, ?_⟩
  · simp only [handle_propfind_dir,
      show parseU32 "1".data = some 1 from by decide]
  · intro v hv
    simp only [handle_propfind_dir, hv]
  · intro v hv
    simp only [handle_propfind_dir, hv]
    cases h : to_pathitem srv fs dir "" <;> simp [Option.toList]
  · intro v d hv hd
    simp only [handle_propfind_dir, hv, if_pos hd]
    cases h : to_pathitem srv fs dir "" <;> simp [Option.toList]

/-- Witness for the amended C4 at the concrete fixture. -/
theorem c4_propfind_depth_witness :
    handle_propfind_dir srvC4 fsC4 "d" (some "infinity") ⟨.ReadWrite, []⟩
      = (400, [])
    ∧ handle_propfind_dir srvC4 fsC4 "d" (some "0") ⟨.ReadWrite, []⟩
      = (207, (to_pathitem srvC4 fsC4 "d" "").toList)
    ∧ handle_propfind_dir srvC4 fsC4 "d" none ⟨.ReadWrite, []⟩
      = handle_propfind_dir srvC4 fsC4 "d" (some "1") ⟨.ReadWrite, []⟩ := by
  have h := c4_propfind_depth srvC4 fsC4 "d" ⟨.ReadWrite, []⟩
  exact ⟨h.2.1 "infinity" (by decide), h.2.2.1 "0" (by decide), h.1⟩

/-- Claim C7: the hidden decision is the same across listing, search, zip and
PROPFIND for non-symlink entries (last conjunct), but NOT for symlinked
directories: with the dir-only pattern `secret/`, a symlink named `secret`
pointing at a directory is classified as a directory by the listing
pipeline (hidden, dropped from listings and PROPFIND) while the search and
zip walks re-stat it with `std::fs::symlink_metadata` — which describes the
link itself, never a directory — so the dir-only pattern does not apply and
the entry is not hidden there. -/
theorem c7_hidden_symlink_divergence :
    listing_entry_hidden argsC7 entC7 = true
    ∧ walk_entry_hidden argsC7 entC7 = false
    ∧ listing_is_dir_type entC7 = true
    ∧ walk_is_dir_type entC7 = false
    ∧ add_pathitem srvC7 fsC7 [] "" "secret" = []
    ∧ list_dir srvC7 fsC7 "" "" ⟨.ReadWrite, []⟩ = []
    ∧ (∀ (args2 : Args) (e2 : FsEntry), e2.isSymlink = false →
        walk_entry_hidden args2 e2 = listing_entry_hidden args2 e2) := by
  refine ⟨by decide, by decide, by decide, by decide, by decide, by decide, ?_⟩
  intro args2 e2 h
  unfold walk_entry_hidden listing_entry_hidden walk_is_dir_type
    symlink_metadata_is_dir listing_is_dir_type
  rw [h]
  simp

/-- Witness for C7's universally quantified conjunct at a plain directory. -/
theorem c7_hidden_symlink_divergence_witness :
    walk_entry_hidden argsC7 ⟨"a", false, true, 0, [], true⟩
      = listing_entry_hidden argsC7 ⟨"a", false, true, 0, [], true⟩ :=
  c7_hidden_symlink_divergence.2.2.2.2.2.2 argsC7
    ⟨"a", false, true, 0, [], true⟩ rfl

theorem then_eq_eq {o1 o2 : Ordering} :
    o1.then o2 = .eq ↔ o1 = .eq ∧ o2 = .eq := by
  cases o1 <;> simp [Ordering.then]

theorem then_swap (o1 o2 : Ordering) :
    (o1.then o2).swap = o1.swap.then o2.swap := by
  cases o1 <;> cases o2 <;> rfl

theorem cmpNat_eq_lt {a b : Nat} : cmpNat a b = .lt ↔ a < b := by
  unfold cmpNat
  split_ifs with h1 h2 <;> simp [h1]

theorem cmpNat_eq_eq {a b : Nat} : cmpNat a b = .eq ↔ a = b := by
  unfold cmpNat
  split_ifs with h1 h2
  · simp; omega
  · simp; omega
  · simp; omega

theorem cmpNat_swap (a b : Nat) : cmpNat a b = (cmpNat b a).swap := by
  unfold cmpNat
  split_ifs with h1 h2 h3 <;> first
    | rfl
    | omega

theorem cmpNat_lt_trans {a b c : Nat} (h1 : cmpNat a b = .lt)
    (h2 : cmpNat b c = .lt) : cmpNat a c = .lt := by
  rw [cmpNat_eq_lt] at h1 h2 ⊢
  omega

theorem cmpChar_eq_lt {a b : Char} : cmpChar a b = .lt ↔ a < b := by
  unfold cmpChar
  split_ifs with h1 h2 <;> simp_all

theorem cmpChar_eq_eq {a b : Char} : cmpChar a b = .eq ↔ a = b := by
  unfold cmpChar
  split_ifs with h1 h2
  · constructor
    · intro h; exact absurd h (by simp)
    · intro h; exact absurd (h ▸ h1) (lt_irrefl a)
  · constructor
    · intro h; exact absurd h (by simp)
    · intro h; exact absurd (h ▸ h2) (lt_irrefl b)
  · simp [le_antisymm (not_lt.mp h2) (not_lt.mp h1)]

theorem cmpChar_swap (a b : Char) : cmpChar a b = (cmpChar b a).swap := by
  unfold cmpChar
  rcases lt_trichotomy a b with h | h | h
  · simp [h, lt_asymm h, Ordering.swap]
  · subst h
    simp [lt_irrefl, Ordering.swap]
  · simp [h, lt_asymm h, Ordering.swap]

theorem cmpChar_lt_trans {a b c : Char} (h1 : cmpChar a b = .lt)
    (h2 : cmpChar b c = .lt) : cmpChar a c = .lt := by
  rw [cmpChar_eq_lt] at h1 h2 ⊢
  exact lt_trans h1 h2

theorem cmpCharList_eq_eq : ∀ (x y : List Char), cmpCharList x y = .eq ↔ x = y
  | [], [] => by simp [cmpCharList]
  | [], _ :: _ => by simp [cmpCharList]
  | _ :: _, [] => by simp [cmpCharList]
  | a :: xs, b :: ys => by
    simp [cmpCharList, then_eq_eq, cmpChar_eq_eq, cmpCharList_eq_eq xs ys]

theorem cmpCharList_swap : ∀ (x y : List Char),
    cmpCharList x y = (cmpCharList y x).swap
  | [], [] => by rfl
  | [], _ :: _ => by rfl
  | _ :: _, [] => by rfl
  | a :: xs, b :: ys => by
    show (cmpChar a b).then (cmpCharList xs ys) = _
    rw [cmpChar_swap, cmpCharList_swap xs ys, ← then_swap]
    rfl

theorem cmpCharList_lt_trans : ∀ (x y z : List Char),
    cmpCharList x y = .lt → cmpCharList y z = .lt → cmpCharList x z = .lt
  | [], [], _ => by intro h1 _; simp [cmpCharList] at h1
  | [], _ :: _, [] => by intro _ h2; simp [cmpCharList] at h2
  | [], _ :: _, _ :: _ => by intro _ _; simp [cmpCharList]
  | _ :: _, [], _ => by intro h1 _; simp [cmpCharList] at h1
  | _ :: _, _ :: _, [] => by intro _ h2; simp [cmpCharList] at h2
  | a :: xs, b :: ys, c :: zs => by
    intro h1 h2
    simp only [cmpCharList] at h1 h2 ⊢
    rcases ha : cmpChar a b with _ | _ | _ <;> rw [ha] at h1 <;>
      rcases hb : cmpChar b c with _ | _ | _ <;> rw [hb] at h2 <;>
      simp only [Ordering.then] at h1 h2 ⊢
    · rw [cmpChar_eq_lt] at ha hb
      rw [show cmpChar a c = .lt from cmpChar_eq_lt.mpr (lt_trans ha hb)]
    · rw [cmpChar_eq_eq] at hb
      rw [show cmpChar a c = .lt from hb ▸ ha]
    · exact absurd h2 (by simp)
    · rw [cmpChar_eq_eq] at ha
      rw [show cmpChar a c = .lt from ha ▸ hb]
    · rw [cmpChar_eq_eq] at ha hb
      rw [show cmpChar a c = .eq from cmpChar_eq_eq.mpr (ha.trans hb)]
      simp only [Ordering.then]
      exact cmpCharList_lt_trans xs ys zs h1 h2
    · exact absurd h2 (by simp)
    · exact absurd h1 (by simp)
    · exact absurd h1 (by simp)
    · exact absurd h1 (by simp)

theorem cmpOptNat_eq_eq : ∀ {x y : Option Nat}, cmpOptNat x y = .eq ↔ x = y
  | none, none => by simp [cmpOptNat]
  | none, some _ => by simp [cmpOptNat]
  | some _, none => by simp [cmpOptNat]
  | some a, some b => by simp [cmpOptNat, cmpNat_eq_eq]

theorem cmpOptNat_swap : ∀ (x y : Option Nat), cmpOptNat x y = (cmpOptNat y x).swap
  | none, none => by rfl
  | none, some _ => by rfl
  | some _, none => by rfl
  | some a, some b => by simpa [cmpOptNat] using cmpNat_swap a b

theorem cmpOptNat_lt_trans : ∀ {x y z : Option Nat},
    cmpOptNat x y = .lt → cmpOptNat y z = .lt → cmpOptNat x z = .lt
  | none, none, _ => by intro h1 _; simp [cmpOptNat] at h1
  | none, some _, none => by intro _ h2; simp [cmpOptNat] at h2
  | none, some _, some _ => by intro _ _; simp [cmpOptNat]
  | some _, none, _ => by intro h1 _; simp [cmpOptNat] at h1
  | some _, some _, none => by intro _ h2; simp [cmpOptNat] at h2
  | some a, some b, some c => by
    intro h1 h2
    simpa [cmpOptNat] using cmpNat_lt_trans (by simpa [cmpOptNat] using h1)
      (by simpa [cmpOptNat] using h2)

theorem then_lt_trans_rule {o1 o2 p1 p2 q1 q2 : Ordering}
    (hlt : o1 = .lt → p1 = .lt → q1 = .lt)
    (hoe : o1 = .eq → p1 = q1)
    (hpe : p1 = .eq → o1 = q1)
    (hlt2 : o2 = .lt → p2 = .lt → q2 = .lt)
    (h1 : o1.then o2 = .lt) (h2 : p1.then p2 = .lt) :
    q1.then q2 = .lt := by
  rcases ho : o1 with _ | _ | _ <;> rcases hp : p1 with _ | _ | _
  · rw [hlt ho hp]; rfl
  · rw [← hpe hp, ho]; rfl
  · rw [hp] at h2; simp [Ordering.then] at h2
  · rw [← hoe ho, hp]; rfl
  · rw [ho] at h1; rw [hp] at h2
    simp only [Ordering.then] at h1 h2
    rw [← hoe ho, hp]
    simp only [Ordering.then]
    exact hlt2 h1 h2
  · rw [hp] at h2; simp [Ordering.then] at h2
  · rw [ho] at h1; simp [Ordering.then] at h1
  · rw [ho] at h1; simp [Ordering.then] at h1
  · rw [ho] at h1; simp [Ordering.then] at h1

theorem string_ext_of_data {s t : String} (h : s.data = t.data) : s = t := by
  cases s; cases t; exact congrArg String.mk h

theorem pathType_rank_inj : ∀ (a b : PathType), a.rank = b.rank → a = b := by
  intro a b
  cases a <;> cases b <;> simp [PathType.rank]

theorem pathItemCmp_eq_eq {a b : PathItem} : pathItemCmp a b = .eq ↔ a = b := by
  unfold pathItemCmp
  simp only [then_eq_eq, cmpNat_eq_eq, cmpCharList_eq_eq, cmpOptNat_eq_eq]
  constructor
  · rintro ⟨⟨hr, hn⟩, hm, hs⟩
    have ht := pathType_rank_inj _ _ hr
    have hname := string_ext_of_data hn
    cases a; cases b
    simp_all
  · rintro rfl
    exact ⟨⟨rfl, rfl⟩, rfl, rfl⟩

theorem pathItemCmp_swap (a b : PathItem) :
    pathItemCmp a b = (pathItemCmp b a).swap := by
  unfold pathItemCmp
  rw [cmpNat_swap a.path_type.rank, cmpCharList_swap a.name.data,
    cmpNat_swap a.mtime, cmpOptNat_swap a.size, ← then_swap, ← then_swap,
    ← then_swap]

theorem pathItemCmp_lt_trans {a b c : PathItem}
    (h1 : pathItemCmp a b = .lt) (h2 : pathItemCmp b c = .lt) :
    pathItemCmp a c = .lt := by
  unfold pathItemCmp at h1 h2 ⊢
  refine then_lt_trans_rule ?_ ?_ ?_ ?_ h1 h2
  · intro u v
    exact then_lt_trans_rule
      (fun x y => cmpNat_lt_trans x y)
      (fun x => by rw [← cmpNat_eq_eq.mp x])
      (fun x => by rw [cmpNat_eq_eq.mp x])
      (fun x y => cmpCharList_lt_trans _ _ _ x y) u v
  · intro u
    rcases then_eq_eq.mp u with ⟨hk, hn⟩
    rw [← cmpNat_eq_eq.mp hk, ← cmpCharList_eq_eq _ _ |>.mp hn]
  · intro u
    rcases then_eq_eq.mp u with ⟨hk, hn⟩
    rw [cmpNat_eq_eq.mp hk, cmpCharList_eq_eq _ _ |>.mp hn]
  · intro u v
    exact then_lt_trans_rule
      (fun x y => cmpNat_lt_trans x y)
      (fun x => by rw [← cmpNat_eq_eq.mp x])
      (fun x => by rw [cmpNat_eq_eq.mp x])
      (fun x y => cmpOptNat_lt_trans x y) u v

instance : IsTrans PathItem pathItemLe := by
  constructor
  intro a b c h1 h2
  unfold pathItemLe at h1 h2 ⊢
  rcases e1 : pathItemCmp a b with _ | _ | _
  · rcases e2 : pathItemCmp b c with _ | _ | _
    · rw [pathItemCmp_lt_trans e1 e2]; simp
    · rw [← pathItemCmp_eq_eq.mp e2, e1]; simp
    · exact absurd e2 h2
  · rw [pathItemCmp_eq_eq.mp e1]
    exact h2
  · exact absurd e1 h1

instance : IsTotal PathItem pathItemLe := by
  constructor
  intro a b
  unfold pathItemLe
  rcases e : pathItemCmp a b with _ | _ | _
  · exact Or.inl (by decide)
  · exact Or.inl (by decide)
  · refine Or.inr ?_
    rw [pathItemCmp_swap b a, e]
    decide

/-- Counterexample to C5 as stated: in the default listing order (no `sort`
parameter) the directory `b` precedes the file `a.txt`, although `a.txt`
sorts strictly before `b` under case-folded natural name order — the
derived `PathItem` order compares the kind first, so directories group
before files instead of interleaving by name. -/
theorem c5_default_sort_counterexample :
    send_index_sort none none [itemA5, itemB5] = [itemB5, itemA5]
    ∧ alphanumeric_compare_str "b" "a.txt" = .gt
    ∧ itemA5.name = "a.txt"
    ∧ itemB5.name = "b"
    ∧ itemA5.path_type = .File
    ∧ itemB5.path_type = .Dir := by
  exact ⟨by decide, by decide, rfl, rfl, rfl, rfl⟩

/-- Claim C5 as amended: a listing rendered without an explicit `sort`
parameter is ordered by `Vec::sort_unstable` under the derived
`Ord` of `PathItem` — lexicographic on (kind, byte-wise case-sensitive
name, mtime, size) with `Dir < SymlinkDir < File < SymlinkFile` — i.e. the
output is a permutation of the entries sorted by that order (kinds group,
no name interleaving). -/
theorem c5_default_sort (paths : List PathItem) :
    List.Sorted pathItemLe (send_index_sort none none paths)
    ∧ (send_index_sort none none paths).Perm paths := by
  constructor
  · exact List.sorted_insertionSort pathItemLe paths
  · exact List.perm_insertionSort pathItemLe paths

end Duf
